import Mathlib

/-!
Shallow embedding of the financial-data normalization and validation pipeline
(`src/services/parser.js`, `src/utils/validation.js`) of the
Financial-Model-Eval repository.

JavaScript values are modelled by `JVal`; numbers are modelled as rationals
(the decimal literals and lengths manipulated by this code are all exactly
representable, and no claim depends on binary floating-point rounding).
JavaScript objects are modelled as association lists in insertion order; the
JS reordering of integer-like keys is not modelled, and no claim depends on
field order.
-/

/-- Model of a JavaScript value.  `vundefined` is the result of reading an
absent property; JSON parsing never produces it. -/
inductive JVal where
  | vnull : JVal
  | vundefined : JVal
  | vbool : Bool → JVal
  | vnum : ℚ → JVal
  | vstr : String → JVal
  | varr : List JVal → JVal
  | vobj : List (String × JVal) → JVal

open JVal

/-- JavaScript truthiness: null, undefined, false, 0 and the empty string
are falsy; every array and object (even empty ones) is truthy. -/
def truthy : JVal → Bool
  | .vnull => false
  | .vundefined => false
  | .vbool b => b
  | .vnum q => decide (q ≠ 0)
  | .vstr s => decide (s ≠ "")
  | .varr _ => true
  | .vobj _ => true

/-- Model of the JS expression `a || b`. -/
def jsOr (a b : JVal) : JVal := if truthy a then a else b

/-- First binding of a key in an object's field list (JS property lookup on
a plain object). -/
def lookupField (fs : List (String × JVal)) (k : String) : Option JVal :=
  fs.lookup k

/-- Model of the JS property read `v[k]`: throws a TypeError on null or
undefined, returns undefined for a missing property; `length` is special on
strings and arrays. -/
def getField : JVal → String → Except String JVal
  | .vnull, k => .error ("Cannot read properties of null (reading " ++ k ++ ")")
  | .vundefined, k => .error ("Cannot read properties of undefined (reading " ++ k ++ ")")
  | .vobj fs, k => .ok ((lookupField fs k).getD .vundefined)
  | .vstr s, k => .ok (if k = "length" then .vnum s.length else .vundefined)
  | .varr xs, k => .ok (if k = "length" then .vnum xs.length else .vundefined)
  | _, _ => .ok .vundefined

/-- Model of `Object.keys`: own enumerable keys of an object, index strings
for arrays and strings, empty for primitives. -/
def objectKeys : JVal → List String
  | .vobj fs => fs.map Prod.fst
  | .varr xs => (List.range xs.length).map (fun i => toString i)
  | .vstr s => (List.range s.length).map (fun i => toString i)
  | _ => []

/-- Model of `Object.entries`, mirroring `objectKeys`. -/
def objectEntries : JVal → List (String × JVal)
  | .vobj fs => fs
  | .varr xs => (List.range xs.length).map (fun i => (toString i, xs.getD i .vundefined))
  | .vstr s => (List.range s.length).map
      (fun i => (toString i, .vstr (String.singleton (s.toList.getD i ' '))))
  | _ => []

/-- Model of JS `String.prototype.trim`: drop leading and trailing
whitespace. -/
def trimChars (cs : List Char) : List Char :=
  ((cs.dropWhile Char.isWhitespace).reverse.dropWhile Char.isWhitespace).reverse

/-- String form of `trimChars`. -/
def jsTrim (s : String) : String := String.mk (trimChars s.toList)

/-- Test of the regular expression `^-?\d+\.?\d*$` after the optional
leading minus has been removed: one or more digits, then an optional dot
followed by zero or more digits. -/
def matchesNumericCore (cs : List Char) : Bool :=
  let ds := cs.takeWhile Char.isDigit
  let rest := cs.dropWhile Char.isDigit
  decide (ds ≠ []) &&
    (match rest with
     | [] => true
     | '.' :: fr => fr.all Char.isDigit
     | _ => false)

/-- Test of the regular expression `^-?\d+\.?\d*$` from `cleanRecord`. -/
def matchesNumeric (s : String) : Bool :=
  match s.toList with
  | '-' :: cs => matchesNumericCore cs
  | cs => matchesNumericCore cs

/-- Value of a digit string, most significant digit first. -/
def digitsVal (ds : List Char) : ℕ :=
  ds.foldl (fun a c => 10 * a + (c.toNat - 48)) 0

/-- Exact rational addition, written with `mkRat` so that concrete
instances reduce inside the kernel; `ratAdd_eq` identifies it with `+`. -/
def ratAdd (a b : ℚ) : ℚ := mkRat (a.num * b.den + b.num * a.den) (a.den * b.den)

theorem ratAdd_eq (a b : ℚ) : ratAdd a b = a + b := by
  unfold ratAdd
  rw [Rat.mkRat_eq_div]
  push_cast
  have ha : ((a.den : ℚ)) ≠ 0 := by positivity
  have hb : ((b.den : ℚ)) ≠ 0 := by positivity
  conv_rhs => rw [← Rat.num_div_den a, ← Rat.num_div_den b]
  rw [div_add_div _ _ ha hb]
  ring_nf

/-- Value of `parseFloat` on the unsigned part of a string matching the
numeric pattern: the integer part plus the decimal fraction, exact as a
rational (`digits "." frac` denotes `digits + frac / 10 ^ |frac|`). -/
def parseDecCore (cs : List Char) : ℚ :=
  let ds := cs.takeWhile Char.isDigit
  let rest := cs.dropWhile Char.isDigit
  match rest with
  | '.' :: fr => mkRat (digitsVal ds * 10 ^ fr.length + digitsVal fr) (10 ^ fr.length)
  | _ => (digitsVal ds : ℚ)

/-- Model of `parseFloat` on strings matching the numeric pattern. -/
def parseFloatQ (s : String) : ℚ :=
  match s.toList with
  | '-' :: cs => - parseDecCore cs
  | cs => parseDecCore cs

/-- Per-field cleaning step of `cleanRecord`: drop null/undefined, trim
strings and drop the field when the trimmed string is empty, convert
numeric-looking strings with `parseFloat`. -/
def cleanValue : JVal → Option JVal
  | .vnull => none
  | .vundefined => none
  | .vstr s =>
      let t := jsTrim s
      if t = "" then none
      else if matchesNumeric t then some (.vnum (parseFloatQ t))
      else some (.vstr t)
  | v => some v

/-- Model of `cleanRecord` from `src/services/parser.js`: rebuild the
record from its entries, dropping null/undefined and empty-after-trim
string fields and coercing numeric strings to numbers. -/
def cleanRecord (record : JVal) : JVal :=
  .vobj ((objectEntries record).filterMap
    (fun p => (cleanValue p.2).map (fun v => (p.1, v))))

/-- The four category buckets of `detectRecordType`. -/
inductive Category where
  | invoices | expenses | payments | balances
deriving DecidableEq

/-- Model of JS `String.prototype.toLowerCase` (character-wise; the keys
and type tags in this pipeline are ASCII). -/
def jsToLower (s : String) : String := String.mk (s.toList.map Char.toLower)

/-- Test whether the second list is a prefix of the first. -/
def listStartsWith : List Char → List Char → Bool
  | _, [] => true
  | [], _ :: _ => false
  | c :: cs, d :: ds => c == d && listStartsWith cs ds

/-- Test whether some suffix of the first list starts with the second. -/
def containsAt : List Char → List Char → Bool
  | [], needle => listStartsWith [] needle
  | c :: cs, needle => listStartsWith (c :: cs) needle || containsAt cs needle

/-- Substring test used to model JS `String.prototype.includes`. -/
def strContains (hay needle : String) : Bool :=
  containsAt hay.toList needle.toList

/-- Field-name fallback of `detectRecordType`: case-insensitive keyword
search over the record's keys, in priority order. -/
def detectByKeys (record : JVal) : Category :=
  let keys := (objectKeys record).map jsToLower
  if keys.any (fun k => strContains k "invoice" || strContains k "bill" ||
      strContains k "revenue") then .invoices
  else if keys.any (fun k => strContains k "payment" ||
      strContains k "transaction") then .payments
  else if keys.any (fun k => strContains k "balance" ||
      strContains k "account") then .balances
  else .expenses

/-- Model of `detectRecordType` from `src/services/parser.js`.  A truthy
non-string `type` field makes `record.type.toLowerCase()` throw a
TypeError, modelled as an `Except.error`. -/
def detectRecordType (record : JVal) : Except String Category := do
  let t ← getField record "type"
  if truthy t then
    match t with
    | .vstr s =>
        let ty := jsToLower s
        if ty = "invoice" ∨ ty = "bill" then pure .invoices
        else if ty = "payment" ∨ ty = "transaction" then pure .payments
        else if ty = "expense" then pure .expenses
        else if ty = "balance" then pure .balances
        else pure (detectByKeys record)
    | _ => .error "record.type.toLowerCase is not a function"
  else
    pure (detectByKeys record)

example : detectRecordType (.vobj [("type", .vstr "payment"),
    ("invoice_number", .vstr "x")]) = .ok .payments := rfl

example : detectRecordType (.vobj [("foo", .vnum 1), ("bar", .vnum 2)]) =
    .ok .expenses := rfl

example : cleanRecord (.vobj [("amount", .vstr "123.45")]) =
    .vobj [("amount", .vnum (mkRat 12345 100))] := rfl

example : (mkRat 12345 100 : ℚ) = 12345 / 100 := by
  rw [Rat.mkRat_eq_div] ; norm_num

/-! JSON parsing (model of `JSON.parse`, used by `normalizeFinancialData`
on string input).  The parser is fuel-indexed; `parseJson` supplies enough
fuel for any input. -/

/-- JSON whitespace. -/
def isJsonWs (c : Char) : Bool :=
  c = ' ' || c = '\t' || c = '\n' || c = '\r'

/-- Hexadecimal digit value. -/
def hexVal (c : Char) : Option ℕ :=
  if '0' ≤ c ∧ c ≤ '9' then some (c.toNat - 48)
  else if 'a' ≤ c ∧ c ≤ 'f' then some (c.toNat - 87)
  else if 'A' ≤ c ∧ c ≤ 'F' then some (c.toNat - 70)
  else none

/-- Parse the body of a JSON string literal (the opening quote already
consumed), returning the decoded characters and the rest of the input. -/
def parseStrBody : ℕ → List Char → Option (List Char × List Char)
  | 0, _ => none
  | _ + 1, [] => none
  | fuel + 1, c :: rest =>
    if c = '"' then some ([], rest)
    else if c = '\\' then
      match rest with
      | [] => none
      | e :: rest2 =>
        let decoded : Option (Char × List Char) :=
          if e = '"' then some ('"', rest2)
          else if e = '\\' then some ('\\', rest2)
          else if e = '/' then some ('/', rest2)
          else if e = 'b' then some (Char.ofNat 8, rest2)
          else if e = 'f' then some (Char.ofNat 12, rest2)
          else if e = 'n' then some ('\n', rest2)
          else if e = 'r' then some ('\r', rest2)
          else if e = 't' then some ('\t', rest2)
          else if e = 'u' then
            match rest2 with
            | a :: b :: cc :: d :: rest3 =>
              match hexVal a, hexVal b, hexVal cc, hexVal d with
              | some x, some y, some z, some w =>
                  some (Char.ofNat (((x * 16 + y) * 16 + z) * 16 + w), rest3)
              | _, _, _, _ => none
            | _ => none
          else none
        match decoded with
        | some (ch, rest3) =>
          match parseStrBody fuel rest3 with
          | some (cs, rest4) => some (ch :: cs, rest4)
          | none => none
        | none => none
    else
      match parseStrBody fuel rest with
      | some (cs, rest3) => some (c :: cs, rest3)
      | none => none

/-- Parse a JSON number after the optional leading minus: integer part
without leading zeros, optional fraction, optional exponent. -/
def parseNumBody (neg : Bool) (cs : List Char) : Option (ℚ × List Char) :=
  let ds := cs.takeWhile Char.isDigit
  let rest := cs.dropWhile Char.isDigit
  if ds = [] then none
  else if ds.length > 1 ∧ ds.headD '0' = '0' then none
  else
    let step2 : ℕ × ℕ × List Char :=
      match rest with
      | '.' :: cs2 =>
        let fr := cs2.takeWhile Char.isDigit
        (digitsVal ds * 10 ^ fr.length + digitsVal fr, fr.length,
          cs2.dropWhile Char.isDigit)
      | _ => (digitsVal ds, 0, rest)
    let (mant, fl, rest2) := step2
    if rest = [] ∧ fl = 0 then
      some ((if neg then -(digitsVal ds : ℚ) else (digitsVal ds : ℚ)), rest)
    else
      match rest with
      | '.' :: cs2 =>
        if (cs2.takeWhile Char.isDigit) = [] then none
        else
          finishNum neg mant fl rest2
      | _ => finishNum neg mant fl rest2
where
  /-- Apply an optional exponent to the scaled mantissa. -/
  finishNum (neg : Bool) (mant fl : ℕ) (rest : List Char) :
      Option (ℚ × List Char) :=
    let mial : ℤ := if neg then -(mant : ℤ) else (mant : ℤ)
    match rest with
    | e :: cs3 =>
      if e = 'e' ∨ e = 'E' then
        let (esign, cs4) :=
          match cs3 with
          | '+' :: t => (false, t)
          | '-' :: t => (true, t)
          | t => (false, t)
        let eds := cs4.takeWhile Char.isDigit
        if eds = [] then none
        else
          let ev := digitsVal eds
          let rest4 := cs4.dropWhile Char.isDigit
          if esign then
            some (mkRat mial (10 ^ (fl + ev)), rest4)
          else if ev ≥ fl then
            some (((mial * (10 ^ (ev - fl) : ℕ) : ℤ) : ℚ), rest4)
          else
            some (mkRat mial (10 ^ (fl - ev)), rest4)
      else some (mkRat mial (10 ^ fl), rest)
    | [] => some (mkRat mial (10 ^ fl), [])

mutual

/-- Parse one JSON value. -/
def parseVal : ℕ → List Char → Option (JVal × List Char)
  | 0, _ => none
  | fuel + 1, cs =>
    match cs.dropWhile isJsonWs with
    | [] => none
    | c :: rest =>
      if c = Char.ofNat 123 then parseObjRest fuel rest true
      else if c = '[' then parseArrRest fuel rest true
      else if c = '"' then
        match parseStrBody (fuel + 1) rest with
        | some (body, rest2) => some (.vstr (String.mk body), rest2)
        | none => none
      else if c = '-' then
        match parseNumBody true rest with
        | some (q, rest2) => some (.vnum q, rest2)
        | none => none
      else if c.isDigit then
        match parseNumBody false (c :: rest) with
        | some (q, rest2) => some (.vnum q, rest2)
        | none => none
      else if listStartsWith (c :: rest) ['t', 'r', 'u', 'e'] then
        some (.vbool true, (c :: rest).drop 4)
      else if listStartsWith (c :: rest) ['f', 'a', 'l', 's', 'e'] then
        some (.vbool false, (c :: rest).drop 5)
      else if listStartsWith (c :: rest) ['n', 'u', 'l', 'l'] then
        some (.vnull, (c :: rest).drop 4)
      else none

/-- Parse the remainder of a JSON array after the opening bracket.  The
`first` flag is true until one element has been read. -/
def parseArrRest : ℕ → List Char → Bool → Option (JVal × List Char)
  | 0, _, _ => none
  | fuel + 1, cs, first =>
    match cs.dropWhile isJsonWs with
    | [] => none
    | c :: rest =>
      if c = ']' ∧ first then some (.varr [], rest)
      else
        let cs2 := if first then c :: rest else
          match c :: rest with
          | ',' :: t => t
          | t => t
        if ¬ first ∧ c ≠ ',' then none
        else
          match parseVal fuel cs2 with
          | some (v, rest2) =>
            match (rest2.dropWhile isJsonWs) with
            | ']' :: rest3 => some (.varr [v], rest3)
            | ',' :: _ =>
              match parseArrRest fuel (rest2.dropWhile isJsonWs) false with
              | some (.varr vs, rest3) => some (.varr (v :: vs), rest3)
              | _ => none
            | _ => none
          | none => none

/-- Parse the remainder of a JSON object after the opening brace. -/
def parseObjRest : ℕ → List Char → Bool → Option (JVal × List Char)
  | 0, _, _ => none
  | fuel + 1, cs, first =>
    match cs.dropWhile isJsonWs with
    | [] => none
    | c :: rest =>
      if c = Char.ofNat 125 ∧ first then some (.vobj [], rest)
      else
        let cs2 := if first then c :: rest else
          match c :: rest with
          | ',' :: t => t
          | t => t
        if ¬ first ∧ c ≠ ',' then none
        else
          match (cs2.dropWhile isJsonWs) with
          | '"' :: rest2 =>
            match parseStrBody (fuel + 1) rest2 with
            | some (key, rest3) =>
              match (rest3.dropWhile isJsonWs) with
              | ':' :: rest4 =>
                match parseVal fuel rest4 with
                | some (v, rest5) =>
                  match (rest5.dropWhile isJsonWs) with
                  | c2 :: rest6 =>
                    if c2 = Char.ofNat 125 then
                      some (.vobj [(String.mk key, v)], rest6)
                    else if c2 = ',' then
                      match parseObjRest fuel (c2 :: rest6) false with
                      | some (.vobj fs, rest7) =>
                          some (.vobj ((String.mk key, v) :: fs), rest7)
                      | _ => none
                    else none
                  | [] => none
                | none => none
              | _ => none
            | none => none
          | _ => none

end

/-- Model of `JSON.parse`: parse one value, require only whitespace after
it. -/
def parseJson (s : String) : Option JVal :=
  match parseVal (s.length + 1) s.toList with
  | some (v, rest) => if rest.dropWhile isJsonWs = [] then some v else none
  | none => none

example : parseJson "42" = some (.vnum 42) := rfl
example : parseJson " [1, null] " = some (.varr [.vnum 1, .vnull]) := rfl
example : parseJson (String.singleton (Char.ofNat 123)) = none := rfl

example : cleanRecord (.vobj [("note", .vstr "abc123")]) =
    .vobj [("note", .vstr "abc123")] := rfl

/-! Normalizer (`normalizeFinancialData` and its helpers from
`src/services/parser.js`). -/

/-- Model of the categorizing `forEach` loop of `categorizeFlatData`:
bucket each record by `detectRecordType`, preserving order; the first
record on which detection throws aborts the loop. -/
def categorize : List JVal →
    Except String (List JVal × List JVal × List JVal × List JVal)
  | [] => .ok ([], [], [], [])
  | r :: rs => do
    let t ← detectRecordType r
    let (i, e, p, b) ← categorize rs
    pure (match t with
      | .invoices => (r :: i, e, p, b)
      | .expenses => (i, r :: e, p, b)
      | .payments => (i, e, r :: p, b)
      | .balances => (i, e, p, r :: b))

/-- Model of `categorizeFlatData`: the four buckets as an object. -/
def categorizeFlatData (flatData : List JVal) : Except String JVal :=
  categorize flatData >>= fun r =>
    pure (.vobj [("invoices", .varr r.1), ("expenses", .varr r.2.1),
      ("payments", .varr r.2.2.1), ("balances", .varr r.2.2.2)])

/-- Model of the optional chain `v?.length`. -/
def optChainLength (v : JVal) : JVal :=
  match v with
  | .vnull => .vundefined
  | .vundefined => .vundefined
  | w => match getField w "length" with
    | .ok r => r
    | .error _ => .vundefined

/-- Model of JS `+` on the values reaching `getTotalRecordCount`: numeric
addition.  Non-numeric operands (NaN arithmetic or string concatenation)
are outside the modelled fragment and collapse to `vundefined`; no claim and
no reachable code path in this development depends on them. -/
def jsAdd : JVal → JVal → JVal
  | .vnum a, .vnum b => .vnum (ratAdd a b)
  | _, _ => .vundefined

/-- Model of the summand `x?.length || 0` of `getTotalRecordCount`. -/
def lenOrZero (v : JVal) : JVal := jsOr (optChainLength v) (.vnum 0)

/-- Model of `getTotalRecordCount` from `src/services/parser.js`. -/
def getTotalRecordCount (data : JVal) : Except String JVal := do
  let inv ← getField data "invoices"
  let expn ← getField data "expenses"
  let pay ← getField data "payments"
  let bal ← getField data "balances"
  pure (jsAdd (jsAdd (jsAdd (lenOrZero inv) (lenOrZero expn))
    (lenOrZero pay)) (lenOrZero bal))

/-- Input accepted by `normalizeFinancialData`: either textual JSON or an
already-parsed value. -/
inductive NormInput where
  | str : String → NormInput
  | val : JVal → NormInput

/-- Assembly step of `normalizeFinancialData`: read the four category
fields, `source`, and the record count from the (already categorized)
data and build the canonical structure.  The `timestamp` produced by
`new Date().toISOString()` is passed in as the explicit argument `ts`. -/
def assembleNormalized (ts : String) (data : JVal) : Except String JVal := do
  let inv ← getField data "invoices"
  let expn ← getField data "expenses"
  let pay ← getField data "payments"
  let bal ← getField data "balances"
  let src ← getField data "source"
  let rc ← getTotalRecordCount data
  pure (.vobj [
    ("invoices", jsOr inv (.varr [])),
    ("expenses", jsOr expn (.varr [])),
    ("payments", jsOr pay (.varr [])),
    ("balances", jsOr bal (.varr [])),
    ("metadata", .vobj [
      ("source", jsOr src (.vstr "manual_input")),
      ("timestamp", .vstr ts),
      ("recordCount", rc)])])

/-- Categorization step: flat arrays are bucketed, everything else is
used as-is. -/
def normalizeData (ts : String) (data0 : JVal) : Except String JVal :=
  match data0 with
  | .varr xs => categorizeFlatData xs >>= assembleNormalized ts
  | v => assembleNormalized ts v

/-- Body of the outer `try` of `normalizeFinancialData`: parse string
input, categorize flat arrays, then assemble the canonical structure. -/
def normalizeCore (ts : String) (input : NormInput) : Except String JVal :=
  match input with
  | .str s =>
    match parseJson s with
    | some v => normalizeData ts v
    | none => .error "Invalid JSON format"
  | .val v => normalizeData ts v

/-- Model of `normalizeFinancialData`: the outer `catch` re-throws every
failure, including the inner JSON parse failure, with the message prefix
`Data normalization failed: `. -/
def normalizeFinancialData (ts : String) (input : NormInput) :
    Except String JVal :=
  match normalizeCore ts input with
  | .ok v => .ok v
  | .error e => .error ("Data normalization failed: " ++ e)

/-- Model of the JS assignment `obj[k] = v`: replace the binding in place
if the key exists, else append it. -/
def setField : List (String × JVal) → String → JVal → List (String × JVal)
  | [], k, v => [(k, v)]
  | (k0, v0) :: fs, k, v =>
    if k0 = k then (k0, v) :: fs else (k0, v0) :: setField fs k v

/-- Model of `typeof r === 'object'` (true for null and arrays in JS). -/
def isObjectType : JVal → Bool
  | .vobj _ => true
  | .varr _ => true
  | .vnull => true
  | _ => false

/-- Model of one category update of `cleanFinancialData`: filter out
non-object entries and clean each record.  A truthy non-array category has
no `.filter` method, so the call throws. -/
def cleanCategory (v : JVal) : Except String JVal :=
  match v with
  | .varr xs => .ok (.varr ((xs.filter
      (fun r => truthy r && isObjectType r)).map cleanRecord))
  | _ => .error "filter is not a function"

/-- Model of one iteration of the category loop of `cleanFinancialData`. -/
def cleanFieldsStep (fs : List (String × JVal)) (cat : String) :
    Except String (List (String × JVal)) :=
  match lookupField fs cat with
  | some v =>
    if truthy v then do
      let cv ← cleanCategory v
      pure (setField fs cat cv)
    else pure fs
  | none => pure fs

/-- Model of `cleanFinancialData` from `src/services/parser.js`: spread
the input into a fresh object and clean the four category sequences. -/
def cleanFinancialData (data : JVal) : Except String JVal := do
  let f0 := objectEntries data
  let f1 ← cleanFieldsStep f0 "invoices"
  let f2 ← cleanFieldsStep f1 "expenses"
  let f3 ← cleanFieldsStep f2 "payments"
  let f4 ← cleanFieldsStep f3 "balances"
  pure (.vobj f4)

example : normalizeFinancialData "T" (.str "42") =
    .ok (.vobj [("invoices", .varr []), ("expenses", .varr []),
      ("payments", .varr []), ("balances", .varr []),
      ("metadata", .vobj [("source", .vstr "manual_input"),
        ("timestamp", .vstr "T"), ("recordCount", .vnum 0)])]) := rfl

example : normalizeFinancialData "T" (.str (String.singleton (Char.ofNat 123))) =
    .error "Data normalization failed: Invalid JSON format" := rfl

example : normalizeFinancialData "T" (.val .vnull) =
    .error "Data normalization failed: Cannot read properties of null (reading invoices)" := rfl

/-! Schema validator (`src/utils/validation.js`): a hand-compiled model of
the AJV validator for `financialDataSchema` (AJV v8, `allErrors: true`,
no `verbose` option), plus `validateData` and `checkDataQuality`. -/

/-- Single-quote character, kept out of string literals. -/
def quoteCh : String := String.singleton (Char.ofNat 39)

/-- An AJV v8 error object as read by `formatValidationError`.  Without
the `verbose` option AJV does not attach the validated data to errors, so
no `data` component is modelled: reading `error.data` yields undefined. -/
structure AjvError where
  instancePath : String
  schemaPath : String
  keyword : String
  message : String
  params : JVal

/-- Output of `formatValidationError`. -/
structure FieldError where
  field : String
  message : String
  value : JVal
  constraint : JVal

/-- Output of `validateData`. -/
structure ValidationResult where
  isValid : Bool
  errors : List FieldError
  warnings : List String

/-- AJV `type` error. -/
def ajvType (ip sp tname : String) : AjvError :=
  ⟨ip, sp, "type", "must be " ++ tname, .vobj [("type", .vstr tname)]⟩

/-- AJV `required` error. -/
def ajvRequired (ip sp prop : String) : AjvError :=
  ⟨ip, sp, "required",
    "must have required property " ++ quoteCh ++ prop ++ quoteCh,
    .vobj [("missingProperty", .vstr prop)]⟩

/-- AJV property lookup: a property whose value is undefined counts as
absent (the compiled validator tests `data.k !== undefined`). -/
def getOwn (fs : List (String × JVal)) (k : String) : Option JVal :=
  match lookupField fs k with
  | some .vundefined => none
  | o => o

/-- Days in a month, as checked by the `date` format of ajv-formats. -/
def daysInMonth (y m : ℕ) : ℕ :=
  if m = 2 then (if (y % 4 = 0 ∧ y % 100 ≠ 0) ∨ y % 400 = 0 then 29 else 28)
  else if m = 4 ∨ m = 6 ∨ m = 9 ∨ m = 11 then 30
  else 31

/-- The `date` format of ajv-formats: `YYYY-MM-DD` with a real calendar
day. -/
def isDateFmt (s : String) : Bool :=
  match s.toList with
  | [y1, y2, y3, y4, '-', m1, m2, '-', d1, d2] =>
    [y1, y2, y3, y4, m1, m2, d1, d2].all Char.isDigit &&
      (let y := digitsVal [y1, y2, y3, y4]
       let m := digitsVal [m1, m2]
       let d := digitsVal [d1, d2]
       decide (1 ≤ m ∧ m ≤ 12 ∧ 1 ≤ d ∧ d ≤ daysInMonth y m))
  | _ => false

/-- Time-zone part of the `date-time` format. -/
def isZone : List Char → Bool
  | [z] => z = 'Z' ∨ z = 'z'
  | [sgn, h1, h2, ':', mi1, mi2] =>
    (sgn = '+' ∨ sgn = '-') && [h1, h2, mi1, mi2].all Char.isDigit &&
      decide (digitsVal [h1, h2] ≤ 23 ∧ digitsVal [mi1, mi2] ≤ 59)
  | _ => false

/-- Fractional seconds followed by a zone, for `date-time`. -/
def isFracZone (cs : List Char) : Bool :=
  match cs with
  | '.' :: rest =>
    let fr := rest.takeWhile Char.isDigit
    decide (fr ≠ []) && isZone (rest.dropWhile Char.isDigit)
  | _ => isZone cs

/-- Time part of the `date-time` format of ajv-formats. -/
def isTimePart : List Char → Bool
  | h1 :: h2 :: ':' :: mi1 :: mi2 :: ':' :: s1 :: s2 :: rest =>
    [h1, h2, mi1, mi2, s1, s2].all Char.isDigit &&
      decide (digitsVal [h1, h2] ≤ 23 ∧ digitsVal [mi1, mi2] ≤ 59 ∧
        digitsVal [s1, s2] ≤ 60) &&
      isFracZone rest
  | _ => false

/-- The `date-time` format of ajv-formats: full-date, `T`, time, zone. -/
def isDateTimeFmt (s : String) : Bool :=
  match s.toList with
  | y1 :: y2 :: y3 :: y4 :: '-' :: m1 :: m2 :: '-' :: d1 :: d2 :: t :: rest =>
    isDateFmt (String.mk [y1, y2, y3, y4, '-', m1, m2, '-', d1, d2]) &&
      (t = 'T' ∨ t = 't') && isTimePart rest
  | _ => false

/-- Errors of a `{type: string}` property subschema. -/
def strPropErrs (ip sp : String) (v : JVal) : List AjvError :=
  match v with
  | .vstr _ => []
  | _ => [ajvType ip (sp ++ "/type") "string"]

/-- Errors of the `id` subschema `{type: [string, number]}`. -/
def idPropErrs (ip sp : String) (v : JVal) : List AjvError :=
  match v with
  | .vstr _ => []
  | .vnum _ => []
  | _ => [⟨ip, sp ++ "/type", "type", "must be string,number",
      .vobj [("type", .varr [.vstr "string", .vstr "number"])]⟩]

/-- Errors of a `{type: number}` subschema with an optional minimum. -/
def numPropErrs (ip sp : String) (min? : Option ℚ) (v : JVal) : List AjvError :=
  match v with
  | .vnum q =>
    match min? with
    | some m =>
      if q < m then
        [⟨ip, sp ++ "/minimum", "minimum", "must be >= " ++ toString m.num,
          .vobj [("comparison", .vstr ">="), ("limit", .vnum m)]⟩]
      else []
    | none => []
  | _ => [ajvType ip (sp ++ "/type") "number"]

/-- Errors of a `{type: string, format: date}` subschema. -/
def datePropErrs (ip sp : String) (v : JVal) : List AjvError :=
  match v with
  | .vstr s =>
    if isDateFmt s then []
    else [⟨ip, sp ++ "/format", "format", "must match format \"date\"",
      .vobj [("format", .vstr "date")]⟩]
  | _ => [ajvType ip (sp ++ "/type") "string"]

/-- Errors of a `{type: string, format: date-time}` subschema. -/
def dateTimePropErrs (ip sp : String) (v : JVal) : List AjvError :=
  match v with
  | .vstr s =>
    if isDateTimeFmt s then []
    else [⟨ip, sp ++ "/format", "format", "must match format \"date-time\"",
      .vobj [("format", .vstr "date-time")]⟩]
  | _ => [ajvType ip (sp ++ "/type") "string"]

/-- Errors of a `{type: string, enum: [...]}` subschema. -/
def enumPropErrs (ip sp : String) (allowed : List String) (v : JVal) :
    List AjvError :=
  (match v with
   | .vstr _ => []
   | _ => [ajvType ip (sp ++ "/type") "string"]) ++
  (if (match v with | .vstr s => allowed.contains s | _ => false) then []
   else [⟨ip, sp ++ "/enum", "enum", "must be equal to one of the allowed values",
     .vobj [("allowedValues", .varr (allowed.map JVal.vstr))]⟩])

/-- Required-property errors of an object subschema. -/
def requiredErrs (ip sp : String) (fs : List (String × JVal))
    (props : List String) : List AjvError :=
  props.filterMap (fun p =>
    if (getOwn fs p).isNone then some (ajvRequired ip sp p) else none)

/-- Apply a property subschema when the property is present. -/
def propErrs (fs : List (String × JVal)) (k : String)
    (f : JVal → List AjvError) : List AjvError :=
  match getOwn fs k with
  | some v => f v
  | none => []

/-- Errors of one invoice item. -/
def invoiceItemErrs (ip : String) (v : JVal) : List AjvError :=
  match v with
  | .vobj fs =>
    requiredErrs ip "#/properties/invoices/items/required" fs ["amount", "date"] ++
    propErrs fs "id" (idPropErrs (ip ++ "/id") "#/properties/invoices/items/properties/id") ++
    propErrs fs "amount" (numPropErrs (ip ++ "/amount") "#/properties/invoices/items/properties/amount" (some 0)) ++
    propErrs fs "date" (datePropErrs (ip ++ "/date") "#/properties/invoices/items/properties/date") ++
    propErrs fs "description" (strPropErrs (ip ++ "/description") "#/properties/invoices/items/properties/description") ++
    propErrs fs "customer" (strPropErrs (ip ++ "/customer") "#/properties/invoices/items/properties/customer") ++
    propErrs fs "status" (enumPropErrs (ip ++ "/status") "#/properties/invoices/items/properties/status" ["pending", "paid", "overdue", "cancelled"])
  | _ => [ajvType ip "#/properties/invoices/items/type" "object"]

/-- Errors of one expense item. -/
def expenseItemErrs (ip : String) (v : JVal) : List AjvError :=
  match v with
  | .vobj fs =>
    requiredErrs ip "#/properties/expenses/items/required" fs ["amount", "date"] ++
    propErrs fs "id" (idPropErrs (ip ++ "/id") "#/properties/expenses/items/properties/id") ++
    propErrs fs "amount" (numPropErrs (ip ++ "/amount") "#/properties/expenses/items/properties/amount" (some 0)) ++
    propErrs fs "date" (datePropErrs (ip ++ "/date") "#/properties/expenses/items/properties/date") ++
    propErrs fs "description" (strPropErrs (ip ++ "/description") "#/properties/expenses/items/properties/description") ++
    propErrs fs "category" (strPropErrs (ip ++ "/category") "#/properties/expenses/items/properties/category") ++
    propErrs fs "vendor" (strPropErrs (ip ++ "/vendor") "#/properties/expenses/items/properties/vendor")
  | _ => [ajvType ip "#/properties/expenses/items/type" "object"]

/-- Errors of one payment item. -/
def paymentItemErrs (ip : String) (v : JVal) : List AjvError :=
  match v with
  | .vobj fs =>
    requiredErrs ip "#/properties/payments/items/required" fs ["amount", "date", "type"] ++
    propErrs fs "id" (idPropErrs (ip ++ "/id") "#/properties/payments/items/properties/id") ++
    propErrs fs "amount" (numPropErrs (ip ++ "/amount") "#/properties/payments/items/properties/amount" none) ++
    propErrs fs "date" (datePropErrs (ip ++ "/date") "#/properties/payments/items/properties/date") ++
    propErrs fs "description" (strPropErrs (ip ++ "/description") "#/properties/payments/items/properties/description") ++
    propErrs fs "type" (enumPropErrs (ip ++ "/type") "#/properties/payments/items/properties/type" ["inbound", "outbound"]) ++
    propErrs fs "method" (strPropErrs (ip ++ "/method") "#/properties/payments/items/properties/method")
  | _ => [ajvType ip "#/properties/payments/items/type" "object"]

/-- Errors of one balance item. -/
def balanceItemErrs (ip : String) (v : JVal) : List AjvError :=
  match v with
  | .vobj fs =>
    requiredErrs ip "#/properties/balances/items/required" fs ["account", "balance", "date"] ++
    propErrs fs "account" (strPropErrs (ip ++ "/account") "#/properties/balances/items/properties/account") ++
    propErrs fs "balance" (numPropErrs (ip ++ "/balance") "#/properties/balances/items/properties/balance" none) ++
    propErrs fs "date" (datePropErrs (ip ++ "/date") "#/properties/balances/items/properties/date") ++
    propErrs fs "currency" (strPropErrs (ip ++ "/currency") "#/properties/balances/items/properties/currency")
  | _ => [ajvType ip "#/properties/balances/items/type" "object"]

/-- Errors of the `metadata` subschema. -/
def metadataErrs (v : JVal) : List AjvError :=
  match v with
  | .vobj fs =>
    propErrs fs "source" (strPropErrs "/metadata/source" "#/properties/metadata/properties/source") ++
    propErrs fs "timestamp" (dateTimePropErrs "/metadata/timestamp" "#/properties/metadata/properties/timestamp") ++
    propErrs fs "recordCount" (numPropErrs "/metadata/recordCount" "#/properties/metadata/properties/recordCount" (some 0))
  | _ => [ajvType "/metadata" "#/properties/metadata/type" "object"]

/-- Errors of a category array: type check, then each item in order. -/
def arrayErrs (key : String) (itemF : String → JVal → List AjvError)
    (v : JVal) : List AjvError :=
  match v with
  | .varr xs =>
    (xs.enum.map (fun p =>
      itemF ("/" ++ key ++ "/" ++ toString p.1) p.2)).flatten
  | _ => [ajvType ("/" ++ key) ("#/properties/" ++ key ++ "/type") "array"]

/-- Model of the compiled AJV validator for `financialDataSchema`
(`allErrors: true`): the full error list, empty exactly when the data is
valid. -/
def validateFinancialData (data : JVal) : List AjvError :=
  match data with
  | .vobj fs =>
    requiredErrs "" "#/required" fs ["invoices", "expenses"] ++
    propErrs fs "invoices" (arrayErrs "invoices" invoiceItemErrs) ++
    propErrs fs "expenses" (arrayErrs "expenses" expenseItemErrs) ++
    propErrs fs "payments" (arrayErrs "payments" paymentItemErrs) ++
    propErrs fs "balances" (arrayErrs "balances" balanceItemErrs) ++
    propErrs fs "metadata" metadataErrs
  | _ => [ajvType "" "#/type" "object"]

/-- Model of `formatValidationError` from `src/utils/validation.js`.  The
`value` component reads `error.data`, which AJV leaves unset without the
`verbose` option, so it is always undefined. -/
def formatValidationError (e : AjvError) : FieldError :=
  { field := if e.instancePath ≠ "" then e.instancePath else e.schemaPath,
    message := e.message,
    value := .vundefined,
    constraint := e.params }

/-- Strict equality test `v === 0`. -/
def strictEqZero (v : JVal) : Bool :=
  match v with
  | .vnum q => decide (q = 0)
  | _ => false

/-- Model of array spread `[...v]`: arrays spread to their elements,
strings to their characters, anything else throws. -/
def spreadIter : JVal → Except String (List JVal)
  | .varr xs => .ok xs
  | .vstr s => .ok (s.toList.map (fun c => .vstr (String.singleton c)))
  | _ => .error "spread of non-iterable value"

/-- Numeric less-than against a bound; non-numbers compare false (the
records reaching this test have schema-checked numeric amounts). -/
def numLt (v : JVal) (bound : ℚ) : Bool :=
  match v with
  | .vnum q => decide (q < bound)
  | _ => false

/-- Numeric greater-than against a bound. -/
def numGt (v : JVal) (bound : ℚ) : Bool :=
  match v with
  | .vnum q => decide (bound < q)
  | _ => false

/-- Records of the list whose `date` field is falsy. -/
def recordsWithoutDates : List JVal → Except String (List JVal)
  | [] => .ok []
  | r :: rs => do
    let d ← getField r "date"
    let rest ← recordsWithoutDates rs
    pure (if truthy d then rest else r :: rest)

/-- Records with a truthy `amount` that is negative or above 1,000,000. -/
def suspiciousAmounts : List JVal → Except String (List JVal)
  | [] => .ok []
  | r :: rs => do
    let a ← getField r "amount"
    let rest ← suspiciousAmounts rs
    pure (if truthy a && (numLt a 0 || numGt a 1000000) then r :: rest
      else rest)

/-- Model of `checkDataQuality` from `src/utils/validation.js`. -/
def checkDataQuality (data : JVal) : Except String (List String) := do
  let inv ← getField data "invoices"
  let w1 := if strictEqZero (optChainLength inv) then
    ["No invoice data provided - cash flow projections may be inaccurate"]
    else []
  let expn ← getField data "expenses"
  let w2 := if strictEqZero (optChainLength expn) then
    ["No expense data provided - cost analysis will be limited"]
    else []
  let a1 ← spreadIter (jsOr inv (.varr []))
  let a2 ← spreadIter (jsOr expn (.varr []))
  let pay ← getField data "payments"
  let a3 ← spreadIter (jsOr pay (.varr []))
  let allRecords := a1 ++ a2 ++ a3
  let noDates ← recordsWithoutDates allRecords
  let w3 := if noDates.length > 0 then
    [toString noDates.length ++
      " records missing dates - timeline analysis may be affected"]
    else []
  let sus ← suspiciousAmounts allRecords
  let w4 := if sus.length > 0 then
    [toString sus.length ++ " records with unusual amounts detected"]
    else []
  pure (w1 ++ w2 ++ w3 ++ w4)

/-- Model of `validateData` from `src/utils/validation.js`: structural
check, error formatting, and quality warnings only when valid. -/
def validateData (data : JVal) : Except String ValidationResult := do
  let errs := validateFinancialData data
  if errs.isEmpty then do
    let w ← checkDataQuality data
    pure ⟨true, [], w⟩
  else
    pure ⟨false, errs.map formatValidationError, []⟩

example : validateData (.vobj [("invoices",
      .varr [.vobj [("date", .vstr "2024-01-01")]]), ("expenses", .varr [])]) =
    .ok ⟨false,
      [⟨"/invoices/0",
        "must have required property " ++ quoteCh ++ "amount" ++ quoteCh,
        .vundefined, .vobj [("missingProperty", .vstr "amount")]⟩], []⟩ := rfl

example : validateData (.vobj [("invoices", .varr []), ("expenses", .varr [])]) =
    .ok ⟨true, [],
      ["No invoice data provided - cash flow projections may be inaccurate",
       "No expense data provided - cost analysis will be limited"]⟩ := rfl

/-! Shared proof infrastructure. -/

theorem okBind {ε α β : Type} (a : α) (f : α → Except ε β) :
    (Except.ok a : Except ε α) >>= f = f a := rfl

theorem errorBind {ε α β : Type} (e : ε) (f : α → Except ε β) :
    (Except.error e : Except ε α) >>= f = Except.error e := rfl

theorem bindEqOk {ε α β : Type} {e : Except ε α} {f : α → Except ε β} {b : β} :
    e >>= f = .ok b ↔ ∃ a, e = .ok a ∧ f a = .ok b := by
  cases e <;> simp [okBind, errorBind]

theorem dropWhileHeadNot {α : Type} (p : α → Bool) :
    ∀ (l : List α) (x : α) (xs : List α), l.dropWhile p = x :: xs → p x = false := by
  intro l
  induction l with
  | nil => intro x xs h; simp [List.dropWhile] at h
  | cons a t ih =>
    intro x xs h
    rw [List.dropWhile_cons] at h
    by_cases hp : p a = true
    · rw [if_pos hp] at h; exact ih x xs h
    · rw [if_neg hp] at h
      cases h
      exact Bool.eq_false_iff.mpr hp

theorem dropWhileIdem {α : Type} (p : α → Bool) (l : List α) :
    (l.dropWhile p).dropWhile p = l.dropWhile p := by
  cases h : l.dropWhile p with
  | nil => simp
  | cons x xs =>
    rw [List.dropWhile_cons, if_neg]
    simp [dropWhileHeadNot p l x xs h]

theorem trimCharsIdem (cs : List Char) :
    trimChars (trimChars cs) = trimChars cs := by
  unfold trimChars
  set ws := Char.isWhitespace with hws
  set as := cs.dropWhile ws with has
  set bs := as.reverse.dropWhile ws with hbs
  have h1 : bs.reverse.dropWhile ws = bs.reverse := by
    cases hr : bs.reverse with
    | nil => simp
    | cons c r =>
      rw [List.dropWhile_cons, if_neg]
      obtain ⟨t, ht⟩ := List.dropWhile_suffix (l := as.reverse) (p := ws)
      rw [← hbs] at ht
      have hasr : as = bs.reverse ++ t.reverse := by
        have := congrArg List.reverse ht
        simpa using this.symm
      have hcons : as = c :: (r ++ t.reverse) := by rw [hasr, hr]; simp
      have hfix : as.dropWhile ws = as := by rw [has]; exact dropWhileIdem ws cs
      have : as.dropWhile ws = c :: (r ++ t.reverse) := by rw [hfix, hcons]
      simp [dropWhileHeadNot ws as c _ this]
  rw [h1, List.reverse_reverse, hbs, dropWhileIdem]

theorem jsTrimIdem (s : String) : jsTrim (jsTrim s) = jsTrim s := by
  unfold jsTrim
  have : (String.mk (trimChars s.toList)).toList = trimChars s.toList := rfl
  rw [this, trimCharsIdem]

theorem jsTrimEmptyIff (s : String) : jsTrim s = "" ↔ trimChars s.toList = [] := by
  unfold jsTrim
  constructor
  · intro h
    have := congrArg String.toList h
    simpa using this
  · intro h; rw [h]

/-- A value produced by `cleanValue` is a fixed point of `cleanValue`. -/
theorem cleanValueFix {v w : JVal} (h : cleanValue v = some w) :
    cleanValue w = some w := by
  cases v with
  | vnull => simp [cleanValue] at h
  | vundefined => simp [cleanValue] at h
  | vbool b => simp [cleanValue] at h; subst h; rfl
  | vnum q => simp [cleanValue] at h; subst h; rfl
  | varr xs => simp [cleanValue] at h; subst h; rfl
  | vobj fs => simp [cleanValue] at h; subst h; rfl
  | vstr s =>
    by_cases ht : jsTrim s = ""
    · simp [cleanValue, ht] at h
    · by_cases hm : matchesNumeric (jsTrim s) = true
      · simp [cleanValue, ht, hm] at h
        subst h; rfl
      · simp [cleanValue, ht, hm] at h
        subst h
        have h2 : jsTrim (jsTrim s) = jsTrim s := jsTrimIdem s
        simp [cleanValue, h2, ht, hm]

/-- The doc-comment claim C6: cleaning is idempotent — for every record
value `r`, `clean(clean(r)) = clean(r)`.  Proved for every JS value, which
covers every Raw Record. -/
theorem c6_clean_idempotent (record : JVal) :
    cleanRecord (cleanRecord record) = cleanRecord record := by
  unfold cleanRecord
  congr 1
  have hentries : objectEntries (JVal.vobj ((objectEntries record).filterMap
      (fun p => (cleanValue p.2).map (fun v => (p.1, v))))) =
      (objectEntries record).filterMap
        (fun p => (cleanValue p.2).map (fun v => (p.1, v))) := rfl
  rw [hentries]
  generalize (objectEntries record) = es
  induction es with
  | nil => rfl
  | cons p t ih =>
    cases hc : cleanValue p.2 with
    | none => simp [List.filterMap_cons, hc, ih]
    | some w =>
      simp only [List.filterMap_cons, hc, Option.map_some]
      have : cleanValue (p.1, w).2 = some w := cleanValueFix hc
      simp [List.filterMap_cons, this, ih]

/-! Record Classifier against its specification.  The spec-side classifier
is written from the specification's words (ordered keyword rules, explicit
tag first) and compared with `detectRecordType` from the source. -/

/-- Ordered (category, keyword set) rules of spec step 2, in the spec's
priority order. -/
def specKeywordRules : List (Category × List String) :=
  [(.invoices, ["invoice", "bill", "revenue"]),
   (.payments, ["payment", "transaction"]),
   (.balances, ["balance", "account"])]

/-- Spec steps 2-3: first rule whose keyword set matches some lower-cased
field name as a substring wins; otherwise default to expense. -/
def specClassifyByKeys (fs : List (String × JVal)) : Category :=
  let keys := fs.map (fun p => jsToLower p.1)
  match specKeywordRules.find? (fun rule =>
      keys.any (fun k => rule.2.any (fun kw => strContains k kw))) with
  | some rule => rule.1
  | none => .expenses

/-- Spec step 1 with fallthrough to steps 2-3: an explicit string `type`
tag is lower-cased and mapped; any other explicit value falls through. -/
def specClassify (fs : List (String × JVal)) : Category :=
  match lookupField fs "type" with
  | some (.vstr s) =>
    let t := jsToLower s
    if t = "invoice" ∨ t = "bill" then .invoices
    else if t = "payment" ∨ t = "transaction" then .payments
    else if t = "expense" then .expenses
    else if t = "balance" then .balances
    else specClassifyByKeys fs
  | _ => specClassifyByKeys fs

theorem pureOk {ε α : Type} (a : α) : (pure a : Except ε α) = .ok a := rfl

theorem detectByKeysEqSpec (fs : List (String × JVal)) :
    detectByKeys (.vobj fs) = specClassifyByKeys fs := by
  unfold detectByKeys specClassifyByKeys specKeywordRules
  simp only [objectKeys, List.map_map, Function.comp_def, List.find?,
    List.any_cons, List.any_nil, Bool.or_false, Bool.or_assoc]
  generalize ((List.map (fun x => jsToLower x.1) fs).any fun k =>
    strContains k "invoice" || (strContains k "bill" || strContains k "revenue")) = b1
  generalize ((List.map (fun x => jsToLower x.1) fs).any fun k =>
    strContains k "payment" || strContains k "transaction") = b2
  generalize ((List.map (fun x => jsToLower x.1) fs).any fun k =>
    strContains k "balance" || strContains k "account") = b3
  cases b1 <;> cases b2 <;> cases b3 <;> rfl

/-- On records whose `type` field is absent, falsy, or a string, the
source classifier agrees with the spec classifier and returns `.ok`. -/
theorem detectEqSpec (fs : List (String × JVal))
    (htyp : ∀ v, lookupField fs "type" = some v →
      truthy v = false ∨ ∃ s, v = .vstr s) :
    detectRecordType (.vobj fs) = .ok (specClassify fs) := by
  unfold detectRecordType specClassify
  have hget : getField (.vobj fs) "type" =
      .ok ((lookupField fs "type").getD .vundefined) := rfl
  rw [hget, okBind]
  cases hl : lookupField fs "type" with
  | none => simp [truthy, detectByKeysEqSpec, pureOk]
  | some v =>
    cases v with
    | vstr s =>
      by_cases hs : s = ""
      · subst hs
        simp [truthy, detectByKeysEqSpec, pureOk, jsToLower]
      · have ht : truthy (JVal.vstr s) = true := by simp [truthy, hs]
        simp only [Option.getD_some, ht, if_true]
        split_ifs <;> simp_all [detectByKeysEqSpec, pureOk]
    | vnull => simp [truthy, detectByKeysEqSpec, pureOk]
    | vundefined => simp [truthy, detectByKeysEqSpec, pureOk]
    | vbool b =>
      rcases htyp _ hl with hf | ⟨s, hsv⟩
      · simp only [Option.getD_some, hf]
        simp [detectByKeysEqSpec, pureOk]
      · exact absurd hsv (by simp)
    | vnum q =>
      rcases htyp _ hl with hf | ⟨s, hsv⟩
      · simp only [Option.getD_some, hf]
        simp [detectByKeysEqSpec, pureOk]
      · exact absurd hsv (by simp)
    | varr xs =>
      rcases htyp _ hl with hf | ⟨s, hsv⟩
      · exact absurd hf (by simp [truthy])
      · exact absurd hsv (by simp)
    | vobj gs =>
      rcases htyp _ hl with hf | ⟨s, hsv⟩
      · exact absurd hf (by simp [truthy])
      · exact absurd hsv (by simp)

/-- Claim C4 (corrected): classification is total and never throws for
every record whose `type` field is absent, falsy, or a string; a truthy
non-string `type` (e.g. a number from CSV auto-casting) makes
`record.type.toLowerCase()` throw instead. -/
theorem c4_classify_total (fs : List (String × JVal))
    (htyp : ∀ v, lookupField fs "type" = some v →
      truthy v = false ∨ ∃ s, v = .vstr s) :
    ∃ c, detectRecordType (.vobj fs) = .ok c :=
  ⟨specClassify fs, detectEqSpec fs htyp⟩

/-- Witness for C4: a record with the falsy numeric type `0` classifies
without throwing. -/
theorem c4_witness :
    ∃ c, detectRecordType (.vobj [("type", .vnum 0)]) = .ok c :=
  c4_classify_total [("type", .vnum 0)]
    (by
      intro v h
      left
      have hv : JVal.vnum 0 = v := Option.some.inj h
      rw [← hv]
      rfl)

/-- Counterexample to C4 as stated: on the record `{type: 2}` (a truthy
non-string `type`), `detectRecordType` throws a TypeError rather than
returning a category. -/
theorem c4_counterexample :
    detectRecordType (.vobj [("type", .vnum 2)]) =
      .error "record.type.toLowerCase is not a function" ∧
    ((∃ c, detectRecordType (.vobj [("type", .vnum 2)]) = Except.ok c) → False) := by
  constructor
  · rfl
  · rintro ⟨c, hc⟩
    rw [show detectRecordType (.vobj [("type", .vnum 2)]) =
      .error "record.type.toLowerCase is not a function" from rfl] at hc
    exact Except.noConfusion hc

/-- Claim C5 (corrected): for every record whose `type` field is absent,
falsy, or a string, `detectRecordType` follows the spec's ordered
algorithm (`specClassify`): explicit string tags first, then keyword
rules in priority order, then the expense default.  The claim's two
example records behave as stated. -/
theorem c5_classifier_order :
    (∀ fs : List (String × JVal),
      (∀ v, lookupField fs "type" = some v →
        truthy v = false ∨ ∃ s, v = .vstr s) →
      detectRecordType (.vobj fs) = .ok (specClassify fs)) ∧
    detectRecordType (.vobj [("type", .vstr "payment"),
      ("invoice_number", .vstr "x")]) = .ok .payments ∧
    detectRecordType (.vobj [("foo", .vnum 1), ("bar", .vnum 2)]) =
      .ok .expenses := by
  refine ⟨fun fs htyp => detectEqSpec fs htyp, rfl, rfl⟩

/-- Witness for C5: the explicit-tag record of the claim agrees with the
spec classifier via the theorem. -/
theorem c5_witness :
    detectRecordType (.vobj [("type", .vstr "payment"),
      ("invoice_number", .vstr "x")]) =
    .ok (specClassify [("type", .vstr "payment"), ("invoice_number", .vstr "x")]) :=
  c5_classifier_order.1 [("type", .vstr "payment"), ("invoice_number", .vstr "x")]
    (by
      intro v h
      right
      exact ⟨"payment", (Option.some.inj h).symm⟩)

/-- Counterexample to C5 as stated: on the record `{type: 1}` the source
classifier throws, while the spec's total algorithm returns expense. -/
theorem c5_counterexample :
    ¬ (detectRecordType (.vobj [("type", .vnum 1)]) =
      .ok (specClassify [("type", .vnum 1)])) := by
  intro h
  rw [show detectRecordType (.vobj [("type", .vnum 1)]) =
    .error "record.type.toLowerCase is not a function" from rfl] at h
  exact Except.noConfusion h

/-! Record Cleaner numeric coercion (claim C7):  the source regular
expression `^-?\d+\.?\d*$` against the claim's pattern, in which the
decimal point requires trailing digits. -/

/-- The claim's pattern, literally: optional leading minus, digits, and an
optional single decimal point with one or more trailing digits. -/
def specNumericClaim (s : String) : Bool :=
  let core := fun (cs : List Char) =>
    let ds := cs.takeWhile Char.isDigit
    let rest := cs.dropWhile Char.isDigit
    decide (ds ≠ []) &&
      (match rest with
       | [] => true
       | '.' :: fr => decide (fr ≠ []) && fr.all Char.isDigit
       | _ => false)
  match s.toList with
  | '-' :: cs => core cs
  | cs => core cs

/-- The amended pattern as an explicit decomposition: optional minus, a
nonempty digit block, and an optional decimal point followed by zero or
more digits. -/
def specNumericAmended (s : String) : Prop :=
  ∃ (neg dot : Bool) (ds fr : List Char),
    ds ≠ [] ∧ ds.all Char.isDigit = true ∧ fr.all Char.isDigit = true ∧
    (dot = false → fr = []) ∧
    s.toList = (if neg then ['-'] else []) ++ ds ++
      (if dot then ['.'] else []) ++ fr

theorem allTakeWhileSelf {α : Type} (p : α → Bool) (l : List α)
    (h : l.all p = true) : l.takeWhile p = l ∧ l.dropWhile p = [] := by
  induction l with
  | nil => exact ⟨rfl, rfl⟩
  | cons a t ih =>
    simp only [List.all_cons, Bool.and_eq_true] at h
    have := ih h.2
    simp [List.takeWhile_cons, List.dropWhile_cons, h.1, this.1, this.2]

theorem takeWhileAppendNot {α : Type} (p : α → Bool) (l t : List α) (c : α)
    (hl : l.all p = true) (hc : p c = false) :
    (l ++ c :: t).takeWhile p = l ∧ (l ++ c :: t).dropWhile p = c :: t := by
  induction l with
  | nil => simp [List.takeWhile_cons, List.dropWhile_cons, hc]
  | cons a r ih =>
    simp only [List.all_cons, Bool.and_eq_true] at hl
    have := ih hl.2
    simp [List.takeWhile_cons, List.dropWhile_cons, hl.1, this.1, this.2]

/-- Decomposition form of `matchesNumericCore`. -/
theorem matchesNumericCoreIff (cs : List Char) :
    matchesNumericCore cs = true ↔
    ∃ (dot : Bool) (ds fr : List Char), ds ≠ [] ∧ ds.all Char.isDigit = true ∧
      fr.all Char.isDigit = true ∧ (dot = false → fr = []) ∧
      cs = ds ++ (if dot then ['.'] else []) ++ fr := by
  constructor
  · intro hm
    unfold matchesNumericCore at hm
    simp only [Bool.and_eq_true, decide_eq_true_eq] at hm
    obtain ⟨hds, hrest⟩ := hm
    have hsplit := List.takeWhile_append_dropWhile Char.isDigit cs
    have hall : (cs.takeWhile Char.isDigit).all Char.isDigit = true :=
      List.all_takeWhile
    revert hrest
    cases hr : cs.dropWhile Char.isDigit with
    | nil =>
      intro _
      refine ⟨false, cs.takeWhile Char.isDigit, [], hds, hall, rfl,
        fun _ => rfl, ?_⟩
      conv_lhs => rw [← hsplit]
      rw [hr]
      simp
    | cons c fr =>
      intro hrest
      by_cases hcdot : c = '.'
      · subst hcdot
        simp only at hrest
        refine ⟨true, cs.takeWhile Char.isDigit, fr, hds, hall, hrest,
          by simp, ?_⟩
        conv_lhs => rw [← hsplit]
        rw [hr]
        simp
      · exfalso
        revert hrest
        cases c
        simp_all [Char.ext_iff]
  · rintro ⟨dot, ds, fr, hds, hdsall, hfrall, hdotfr, heq⟩
    cases dot with
    | false =>
      rw [hdotfr rfl] at heq
      have heq2 : cs = ds := by simpa using heq
      have h2 := allTakeWhileSelf Char.isDigit ds hdsall
      rw [heq2]
      unfold matchesNumericCore
      simp only [h2.1, h2.2]
      simp [hds]
    | true =>
      have heq2 : cs = ds ++ '.' :: fr := by simpa using heq
      have h2 := takeWhileAppendNot Char.isDigit ds fr '.' hdsall (by decide)
      rw [heq2]
      unfold matchesNumericCore
      simp only [h2.1, h2.2]
      simp [hds, hfrall]

/-- The source regex agrees with the amended pattern on every string. -/
theorem matchesNumericIff (s : String) :
    matchesNumeric s = true ↔ specNumericAmended s := by
  unfold matchesNumeric specNumericAmended
  constructor
  · intro hm
    split at hm
    · next cs heq =>
      obtain ⟨dot, ds, fr, h1, h2, h3, h4, h5⟩ := (matchesNumericCoreIff cs).mp hm
      exact ⟨true, dot, ds, fr, h1, h2, h3, h4, by rw [heq, h5]; simp⟩
    · next cs hne =>
      obtain ⟨dot, ds, fr, h1, h2, h3, h4, h5⟩ :=
        (matchesNumericCoreIff s.toList).mp hm
      exact ⟨false, dot, ds, fr, h1, h2, h3, h4, by simpa using h5⟩
  · rintro ⟨neg, dot, ds, fr, h1, h2, h3, h4, h5⟩
    cases neg with
    | true =>
      have h5' : s.toList = '-' :: (ds ++ (if dot then ['.'] else []) ++ fr) := by
        simpa using h5
      rw [h5']
      exact (matchesNumericCoreIff _).mpr ⟨dot, ds, fr, h1, h2, h3, h4, rfl⟩
    | false =>
      cases hds : ds with
      | nil => exact absurd hds h1
      | cons d ds2 =>
        subst hds
        have hdd : d.isDigit = true := by
          simp only [List.all_cons, Bool.and_eq_true] at h2
          exact h2.1
        have hdne : ¬ d = '-' := by
          intro heq
          rw [heq] at hdd
          exact absurd hdd (by decide)
        have h5' : s.toList = d :: (ds2 ++ (if dot then ['.'] else []) ++ fr) := by
          simpa using h5
        rw [h5']
        split
        · next cs2 heq2 =>
          injection heq2 with hhead htail
          exact absurd hhead hdne
        · next cs2 hne2 =>
          exact (matchesNumericCoreIff _).mpr
            ⟨dot, d :: ds2, fr, h1, h2, h3, h4, by simp⟩

/-- Claim C7 (amended): cleaning converts a (trimmed, nonempty) string
field to a number exactly when it matches the pattern with an optional
leading minus, digits, and an optional single decimal point followed by
zero or more trailing digits; `{amount: "123.45"}` becomes the number
`123.45` and `{note: "abc123"}` keeps the string. -/
theorem c7_numeric_coercion :
    (∀ s : String, jsTrim s = s → s ≠ "" →
      ((∃ q, cleanValue (.vstr s) = some (.vnum q)) ↔ specNumericAmended s)) ∧
    cleanRecord (.vobj [("amount", .vstr "123.45")]) =
      .vobj [("amount", .vnum (mkRat 12345 100))] ∧
    (mkRat 12345 100 : ℚ) = 12345 / 100 ∧
    cleanRecord (.vobj [("note", .vstr "abc123")]) =
      .vobj [("note", .vstr "abc123")] := by
  refine ⟨?_, rfl, by rw [Rat.mkRat_eq_div]; norm_num, rfl⟩
  intro s htrim hne
  constructor
  · rintro ⟨q, hq⟩
    by_contra hns
    have hmn : matchesNumeric s = false := by
      cases hmm : matchesNumeric s
      · rfl
      · exact absurd ((matchesNumericIff s).mp hmm) hns
    unfold cleanValue at hq
    simp only [htrim, hmn] at hq
    rw [if_neg hne] at hq
    simp at hq
  · intro hs
    have hm := (matchesNumericIff s).mpr hs
    refine ⟨parseFloatQ s, ?_⟩
    unfold cleanValue
    simp [htrim, hne, hm]

/-- Witness for C7: the claim's own example `"123.45"` is trimmed and is
converted to a number by the theorem. -/
theorem c7_witness :
    jsTrim "123.45" = "123.45" ∧
    (∃ q, cleanValue (.vstr "123.45") = some (.vnum q)) :=
  ⟨rfl, (c7_numeric_coercion.1 "123.45" rfl (by decide)).mpr
    ⟨false, true, ['1', '2', '3'], ['4', '5'], by decide, by decide,
      by decide, by decide, by decide⟩⟩

/-- Counterexample to C7 as stated: the trimmed, nonempty string `"5."`
is converted to the number `5` by the code, although it has a decimal
point with no trailing digits and therefore does not match the claim's
pattern. -/
theorem c7_counterexample :
    cleanValue (.vstr "5.") = some (.vnum 5) ∧
    specNumericClaim "5." = false ∧
    jsTrim "5." = "5." ∧ ("5." : String) ≠ "" :=
  ⟨rfl, rfl, rfl, by decide⟩

/-! Characterization of `normalizeFinancialData` on each input shape. -/

/-- The canonical structure produced for inputs with no usable fields. -/
def emptyNormalized (ts : String) : JVal :=
  .vobj [("invoices", .varr []), ("expenses", .varr []),
    ("payments", .varr []), ("balances", .varr []),
    ("metadata", .vobj [("source", .vstr "manual_input"),
      ("timestamp", .vstr ts), ("recordCount", .vnum 0)])]

theorem normalizeCoreObj (ts : String) (fs : List (String × JVal)) :
    normalizeCore ts (.val (.vobj fs)) = .ok (.vobj [
      ("invoices", jsOr ((lookupField fs "invoices").getD .vundefined) (.varr [])),
      ("expenses", jsOr ((lookupField fs "expenses").getD .vundefined) (.varr [])),
      ("payments", jsOr ((lookupField fs "payments").getD .vundefined) (.varr [])),
      ("balances", jsOr ((lookupField fs "balances").getD .vundefined) (.varr [])),
      ("metadata", .vobj [
        ("source", jsOr ((lookupField fs "source").getD .vundefined)
          (.vstr "manual_input")),
        ("timestamp", .vstr ts),
        ("recordCount",
          jsAdd (jsAdd (jsAdd
            (lenOrZero ((lookupField fs "invoices").getD .vundefined))
            (lenOrZero ((lookupField fs "expenses").getD .vundefined)))
            (lenOrZero ((lookupField fs "payments").getD .vundefined)))
            (lenOrZero ((lookupField fs "balances").getD .vundefined)))])]) := rfl

theorem normalizeCoreNum (ts : String) (q : ℚ) :
    normalizeCore ts (.val (.vnum q)) = .ok (emptyNormalized ts) := rfl

theorem normalizeCoreStr (ts s : String) :
    normalizeCore ts (.val (.vstr s)) = .ok (emptyNormalized ts) := rfl

theorem normalizeCoreBool (ts : String) (b : Bool) :
    normalizeCore ts (.val (.vbool b)) = .ok (emptyNormalized ts) := rfl

theorem normalizeCoreNull (ts : String) :
    normalizeCore ts (.val .vnull) =
      .error "Cannot read properties of null (reading invoices)" := rfl

theorem normalizeCoreUndef (ts : String) :
    normalizeCore ts (.val .vundefined) =
      .error "Cannot read properties of undefined (reading invoices)" := rfl

theorem normalizeCoreArr (ts : String) (xs i e p b : List JVal)
    (hc : categorize xs = .ok (i, e, p, b)) :
    normalizeCore ts (.val (.varr xs)) = .ok (.vobj [
      ("invoices", .varr i), ("expenses", .varr e),
      ("payments", .varr p), ("balances", .varr b),
      ("metadata", .vobj [
        ("source", .vstr "manual_input"),
        ("timestamp", .vstr ts),
        ("recordCount",
          jsAdd (jsAdd (jsAdd (lenOrZero (.varr i)) (lenOrZero (.varr e)))
            (lenOrZero (.varr p))) (lenOrZero (.varr b)))])]) := by
  simp only [normalizeCore, normalizeData, categorizeFlatData]
  rw [hc]
  rfl

theorem normalizeCoreArrErr (ts : String) (xs : List JVal) (msg : String)
    (hc : categorize xs = .error msg) :
    normalizeCore ts (.val (.varr xs)) = .error msg := by
  simp only [normalizeCore, normalizeData, categorizeFlatData]
  rw [hc]
  rfl

theorem normalizeStrNone (ts s : String) (hp : parseJson s = none) :
    normalizeCore ts (.str s) = .error "Invalid JSON format" := by
  simp only [normalizeCore]
  rw [hp]

theorem normalizeStrSome (ts s : String) (v : JVal)
    (hp : parseJson s = some v) :
    normalizeCore ts (.str s) = normalizeCore ts (.val v) := by
  simp only [normalizeCore]
  rw [hp]

/-- Every successful normalization produces the five-field canonical
object, with the record count computed from the same raw category values
that populate the output fields. -/
theorem normalizeCoreSpec (ts : String) (inp : NormInput) (out : JVal)
    (h : normalizeCore ts inp = .ok out) :
    ∃ inv expn pay bal src : JVal,
      out = .vobj [
        ("invoices", jsOr inv (.varr [])),
        ("expenses", jsOr expn (.varr [])),
        ("payments", jsOr pay (.varr [])),
        ("balances", jsOr bal (.varr [])),
        ("metadata", .vobj [
          ("source", jsOr src (.vstr "manual_input")),
          ("timestamp", .vstr ts),
          ("recordCount",
            jsAdd (jsAdd (jsAdd (lenOrZero inv) (lenOrZero expn))
              (lenOrZero pay)) (lenOrZero bal))])] := by
  have hval : ∀ v : JVal, normalizeCore ts (.val v) = .ok out →
      ∃ inv expn pay bal src : JVal,
      out = .vobj [
        ("invoices", jsOr inv (.varr [])),
        ("expenses", jsOr expn (.varr [])),
        ("payments", jsOr pay (.varr [])),
        ("balances", jsOr bal (.varr [])),
        ("metadata", .vobj [
          ("source", jsOr src (.vstr "manual_input")),
          ("timestamp", .vstr ts),
          ("recordCount",
            jsAdd (jsAdd (jsAdd (lenOrZero inv) (lenOrZero expn))
              (lenOrZero pay)) (lenOrZero bal))])] := by
    intro v hv
    cases v with
    | vobj fs =>
      rw [normalizeCoreObj] at hv
      exact ⟨_, _, _, _, _, (Except.ok.inj hv).symm⟩
    | varr xs =>
      cases hc : categorize xs with
      | error msg =>
        rw [normalizeCoreArrErr ts xs msg hc] at hv
        exact Except.noConfusion hv
      | ok r =>
        obtain ⟨i, e, p, b⟩ := r
        rw [normalizeCoreArr ts xs i e p b hc] at hv
        refine ⟨.varr i, .varr e, .varr p, .varr b, .vundefined, ?_⟩
        rw [← Except.ok.inj hv]
        rfl
    | vnull =>
      rw [normalizeCoreNull] at hv
      exact Except.noConfusion hv
    | vundefined =>
      rw [normalizeCoreUndef] at hv
      exact Except.noConfusion hv
    | vnum q =>
      rw [normalizeCoreNum] at hv
      refine ⟨.vundefined, .vundefined, .vundefined, .vundefined, .vundefined, ?_⟩
      rw [← Except.ok.inj hv]
      rfl
    | vstr s =>
      rw [normalizeCoreStr] at hv
      refine ⟨.vundefined, .vundefined, .vundefined, .vundefined, .vundefined, ?_⟩
      rw [← Except.ok.inj hv]
      rfl
    | vbool b =>
      rw [normalizeCoreBool] at hv
      refine ⟨.vundefined, .vundefined, .vundefined, .vundefined, .vundefined, ?_⟩
      rw [← Except.ok.inj hv]
      rfl
  cases inp with
  | val v => exact hval v h
  | str s =>
    cases hp : parseJson s with
    | none =>
      rw [normalizeStrNone ts s hp] at h
      exact Except.noConfusion h
    | some v =>
      rw [normalizeStrSome ts s v hp] at h
      exact hval v h

/-- Contribution of one raw category value to the record count: whenever
`v || []` is the array that ends up in the output, `v?.length || 0` is its
length. -/
theorem lenOrZeroOfJsOrArr {v : JVal} {l : List JVal}
    (h : jsOr v (.varr []) = .varr l) :
    lenOrZero v = .vnum (l.length : ℚ) := by
  cases v with
  | vnull =>
    have hl : l = [] := by simpa [jsOr, truthy] using h.symm
    subst hl
    rfl
  | vundefined =>
    have hl : l = [] := by simpa [jsOr, truthy] using h.symm
    subst hl
    rfl
  | vbool b =>
    cases b with
    | false =>
      have hl : l = [] := by simpa [jsOr, truthy] using h.symm
      subst hl
      rfl
    | true => simp [jsOr, truthy] at h
  | vnum q =>
    by_cases hq : q = 0
    · subst hq
      have hl : l = [] := by simpa [jsOr, truthy] using h.symm
      subst hl
      rfl
    · simp [jsOr, truthy, hq] at h
  | vstr s =>
    by_cases hs : s = ""
    · subst hs
      have hl : l = [] := by simpa [jsOr, truthy] using h.symm
      subst hl
      rfl
    · simp [jsOr, truthy, hs] at h
  | vobj fs => simp [jsOr, truthy] at h
  | varr xs =>
    have hl : xs = l := by simpa [jsOr, truthy] using h
    subst hl
    cases xs with
    | nil => rfl
    | cons a t =>
      unfold lenOrZero optChainLength getField jsOr truthy
      simp
      intro hq
      exact absurd hq (by positivity)

/-- Claim C1 (amended): the Normalizer does not apply the Cleaner: for
already-categorized object input the returned category sequences are
exactly the input sequences with every record unmodified.  Cleaning lives
only in the separate, uncalled `cleanFinancialData`, which filters out
non-object entries and maps `cleanRecord` over each category. -/
theorem c1_cleaner_not_applied :
    (∀ (ts : String) (fs : List (String × JVal)) (l1 l2 l3 l4 : List JVal),
      lookupField fs "invoices" = some (.varr l1) →
      lookupField fs "expenses" = some (.varr l2) →
      lookupField fs "payments" = some (.varr l3) →
      lookupField fs "balances" = some (.varr l4) →
      ∃ md, normalizeFinancialData ts (.val (.vobj fs)) = .ok (.vobj
        [("invoices", .varr l1), ("expenses", .varr l2),
         ("payments", .varr l3), ("balances", .varr l4),
         ("metadata", md)])) ∧
    (∀ l1 l2 l3 l4 : List JVal,
      cleanFinancialData (.vobj [("invoices", .varr l1), ("expenses", .varr l2),
        ("payments", .varr l3), ("balances", .varr l4)]) =
      .ok (.vobj [
        ("invoices", .varr ((l1.filter
          (fun r => truthy r && isObjectType r)).map cleanRecord)),
        ("expenses", .varr ((l2.filter
          (fun r => truthy r && isObjectType r)).map cleanRecord)),
        ("payments", .varr ((l3.filter
          (fun r => truthy r && isObjectType r)).map cleanRecord)),
        ("balances", .varr ((l4.filter
          (fun r => truthy r && isObjectType r)).map cleanRecord))])) := by
  constructor
  · intro ts fs l1 l2 l3 l4 hinv hexp hpay hbal
    refine ⟨.vobj [("source", jsOr ((lookupField fs "source").getD .vundefined)
        (.vstr "manual_input")), ("timestamp", .vstr ts),
      ("recordCount", jsAdd (jsAdd (jsAdd
        (lenOrZero ((lookupField fs "invoices").getD .vundefined))
        (lenOrZero ((lookupField fs "expenses").getD .vundefined)))
        (lenOrZero ((lookupField fs "payments").getD .vundefined)))
        (lenOrZero ((lookupField fs "balances").getD .vundefined)))], ?_⟩
    unfold normalizeFinancialData
    rw [normalizeCoreObj]
    simp only [hinv, hexp, hpay, hbal, Option.getD_some]
    simp [jsOr, truthy]
  · intro l1 l2 l3 l4
    rfl

/-- Witness for C1: a record with the dirty field `" 5 "` passes through
normalization unchanged, while `cleanFinancialData` cleans it. -/
theorem c1_witness :
    (∃ md, normalizeFinancialData "T" (.val (.vobj
      [("invoices", .varr [.vobj [("amount", .vstr " 5 ")]]),
       ("expenses", .varr []), ("payments", .varr []),
       ("balances", .varr [])])) =
      .ok (.vobj [("invoices", .varr [.vobj [("amount", .vstr " 5 ")]]),
        ("expenses", .varr []), ("payments", .varr []),
        ("balances", .varr []), ("metadata", md)])) ∧
    cleanFinancialData (.vobj
      [("invoices", .varr [.vobj [("amount", .vstr " 5 ")]]),
       ("expenses", .varr []), ("payments", .varr []),
       ("balances", .varr [])]) =
    .ok (.vobj [
      ("invoices", .varr [.vobj [("amount", .vnum 5)]]),
      ("expenses", .varr []),
      ("payments", .varr []), ("balances", .varr [])]) := by
  constructor
  · exact c1_cleaner_not_applied.1 "T" _ _ _ _ _ rfl rfl rfl rfl
  · have h := c1_cleaner_not_applied.2 [JVal.vobj [("amount", .vstr " 5 ")]] [] [] []
    exact h

/-- Counterexample to C1 as stated: normalization succeeds on an input
holding the record `{amount: " 5 "}` and returns that record verbatim in
the invoices sequence, although cleaning would have trimmed and coerced
the field — so the output record is not what `clean` would produce. -/
theorem c1_counterexample :
    normalizeFinancialData "T" (.val (.vobj
      [("invoices", .varr [.vobj [("amount", .vstr " 5 ")]]),
       ("expenses", .varr [])])) =
      .ok (.vobj [("invoices", .varr [.vobj [("amount", .vstr " 5 ")]]),
        ("expenses", .varr []), ("payments", .varr []),
        ("balances", .varr []),
        ("metadata", .vobj [("source", .vstr "manual_input"),
          ("timestamp", .vstr "T"), ("recordCount", .vnum 1)])]) ∧
    cleanRecord (.vobj [("amount", .vstr " 5 ")]) =
      .vobj [("amount", .vnum 5)] ∧
    JVal.vobj [("amount", .vnum 5)] ≠ .vobj [("amount", .vstr " 5 ")] := by
  refine ⟨rfl, rfl, ?_⟩
  simp

/-- Claim C2 (confirmed): for every input on which normalization succeeds
and yields array-valued category sequences, `metadata.recordCount` is the
natural number `len(invoices) + len(expenses) + len(payments) +
len(balances)` (hence an integer that is at least zero), computed at
assembly time. -/
theorem c2_record_count (ts : String) (inp : NormInput) (out md : JVal)
    (l1 l2 l3 l4 : List JVal)
    (hok : normalizeFinancialData ts inp = .ok out)
    (h1 : getField out "invoices" = .ok (.varr l1))
    (h2 : getField out "expenses" = .ok (.varr l2))
    (h3 : getField out "payments" = .ok (.varr l3))
    (h4 : getField out "balances" = .ok (.varr l4))
    (hmd : getField out "metadata" = .ok md) :
    getField md "recordCount" =
      .ok (.vnum ((l1.length + l2.length + l3.length + l4.length : ℕ) : ℚ)) := by
  have hcore : normalizeCore ts inp = .ok out := by
    unfold normalizeFinancialData at hok
    cases hc : normalizeCore ts inp with
    | ok v =>
      rw [hc] at hok
      have hok2 : Except.ok v = Except.ok out := hok
      exact hok2
    | error e =>
      rw [hc] at hok
      exact Except.noConfusion hok
  obtain ⟨inv, expn, pay, bal, src, hout⟩ := normalizeCoreSpec ts inp out hcore
  subst hout
  have e1 : jsOr inv (.varr []) = .varr l1 := Except.ok.inj h1
  have e2 : jsOr expn (.varr []) = .varr l2 := Except.ok.inj h2
  have e3 : jsOr pay (.varr []) = .varr l3 := Except.ok.inj h3
  have e4 : jsOr bal (.varr []) = .varr l4 := Except.ok.inj h4
  have emd : (JVal.vobj [("source", jsOr src (.vstr "manual_input")),
      ("timestamp", .vstr ts),
      ("recordCount", jsAdd (jsAdd (jsAdd (lenOrZero inv) (lenOrZero expn))
        (lenOrZero pay)) (lenOrZero bal))]) = md := Except.ok.inj hmd
  rw [← emd]
  show Except.ok (jsAdd (jsAdd (jsAdd (lenOrZero inv) (lenOrZero expn))
    (lenOrZero pay)) (lenOrZero bal)) = _
  rw [lenOrZeroOfJsOrArr e1, lenOrZeroOfJsOrArr e2, lenOrZeroOfJsOrArr e3,
    lenOrZeroOfJsOrArr e4]
  simp only [jsAdd, ratAdd_eq]
  congr 1
  push_cast
  ring_nf

/-- Witness for C2: normalizing one invoice record yields `recordCount`
`1 = 1 + 0 + 0 + 0`. -/
theorem c2_witness :
    getField (.vobj [("source", .vstr "manual_input"), ("timestamp", .vstr "T"),
      ("recordCount", .vnum 1)]) "recordCount" =
    .ok (.vnum (((1 + 0 + 0 + 0 : ℕ)) : ℚ)) :=
  c2_record_count "T"
    (.val (.vobj [("invoices", .varr [.vobj []]), ("expenses", .varr [])]))
    (.vobj [("invoices", .varr [.vobj []]), ("expenses", .varr []),
      ("payments", .varr []), ("balances", .varr []),
      ("metadata", .vobj [("source", .vstr "manual_input"),
        ("timestamp", .vstr "T"), ("recordCount", .vnum 1)])])
    (.vobj [("source", .vstr "manual_input"), ("timestamp", .vstr "T"),
      ("recordCount", .vnum 1)])
    [.vobj []] [] [] [] rfl rfl rfl rfl rfl rfl

/-- Claim C3 (amended): every failure of the Normalizer is wrapped by the
outer catch with the prefix `Data normalization failed: `, so the parse
failure is not surfaced verbatim; well-formed text behaves exactly as the
parsed value; a non-object top-level scalar succeeds with empty category
sequences; a null top-level value fails with a wrapped TypeError. -/
theorem c3_error_wrapping :
    (∀ (ts s : String), parseJson s = none →
      normalizeFinancialData ts (.str s) =
        .error "Data normalization failed: Invalid JSON format") ∧
    (∀ (ts s : String) (v : JVal), parseJson s = some v →
      normalizeFinancialData ts (.str s) = normalizeFinancialData ts (.val v)) ∧
    (∀ (ts : String) (q : ℚ), normalizeFinancialData ts (.val (.vnum q)) =
      .ok (emptyNormalized ts)) ∧
    (∀ ts : String, normalizeFinancialData ts (.val .vnull) =
      .error "Data normalization failed: Cannot read properties of null (reading invoices)") := by
  refine ⟨?_, ?_, ?_, ?_⟩
  · intro ts s hp
    unfold normalizeFinancialData
    rw [normalizeStrNone ts s hp]
    rfl
  · intro ts s v hp
    unfold normalizeFinancialData
    rw [normalizeStrSome ts s v hp]
  · intro ts q
    unfold normalizeFinancialData
    rw [normalizeCoreNum]
  · intro ts
    unfold normalizeFinancialData
    rw [normalizeCoreNull]
    rfl

/-- Witness for C3: the malformed text `"{"` produces the wrapped message,
and the well-formed text `"42"` behaves as the parsed scalar `42`. -/
theorem c3_witness :
    normalizeFinancialData "T" (.str (String.singleton (Char.ofNat 123))) =
      .error "Data normalization failed: Invalid JSON format" ∧
    normalizeFinancialData "T" (.str "42") =
      normalizeFinancialData "T" (.val (.vnum 42)) :=
  ⟨c3_error_wrapping.1 "T" _ rfl, c3_error_wrapping.2.1 "T" "42" (.vnum 42) rfl⟩

/-- Counterexample to C3 as stated: the parsed scalar input `"42"`
succeeds (the claim requires a NormalizationError), and malformed JSON
text surfaces as the wrapped message
`Data normalization failed: Invalid JSON format`, not as a verbatim,
distinguishable ParseError. -/
theorem c3_counterexample :
    normalizeFinancialData "T" (.str "42") = .ok (emptyNormalized "T") ∧
    normalizeFinancialData "T" (.str (String.singleton (Char.ofNat 123))) =
      .error ("Data normalization failed: " ++ "Invalid JSON format") :=
  ⟨rfl, rfl⟩

/-- Claim C8 (amended): validating `{invoices: [{date: "2024-01-01"}],
expenses: []}` yields `isValid: false` with exactly one FieldError at path
`/invoices/0` carrying the required-amount message and the violated
constraint; its `value` component is undefined because AJV without the
`verbose` option does not attach the offending data to errors. -/
theorem c8_validation_failure :
    validateData (.vobj [("invoices", .varr [.vobj [("date", .vstr "2024-01-01")]]),
      ("expenses", .varr [])]) =
    .ok ⟨false,
      [⟨"/invoices/0",
        "must have required property " ++ quoteCh ++ "amount" ++ quoteCh,
        .vundefined, .vobj [("missingProperty", .vstr "amount")]⟩], []⟩ := rfl

/-- Counterexample to C8 as stated: the single FieldError's `value` is
undefined, not the offending record, so the error does not carry the
offending value. -/
theorem c8_counterexample :
    (validateData (.vobj [("invoices", .varr [.vobj [("date", .vstr "2024-01-01")]]),
      ("expenses", .varr [])])).map
      (fun r => (r.isValid, r.errors.map (fun e => e.value))) =
      .ok (false, [JVal.vundefined]) ∧
    JVal.vundefined ≠ .vobj [("date", .vstr "2024-01-01")] := by
  refine ⟨rfl, ?_⟩
  simp

/-- Claim C9 (confirmed): quality warnings are soft: a structurally valid
object with an empty invoices sequence gets the cash-flow projection
warning while staying valid, and a structurally invalid input always has
an empty warnings list. -/
theorem c9_warnings_soft :
    (∀ (fs : List (String × JVal)) (r : ValidationResult),
      validateData (.vobj fs) = .ok r → r.isValid = true →
      lookupField fs "invoices" = some (.varr []) →
      "No invoice data provided - cash flow projections may be inaccurate"
        ∈ r.warnings) ∧
    (∀ (d : JVal) (r : ValidationResult),
      validateData d = .ok r → r.isValid = false → r.warnings = []) := by
  constructor
  · intro fs r hok hval hinv
    unfold validateData at hok
    by_cases he : (validateFinancialData (.vobj fs)).isEmpty
    · rw [if_pos he] at hok
      rcases bindEqOk.mp hok with ⟨w, hw, hp⟩
      have hr : ValidationResult.mk true [] w = r := Except.ok.inj hp
      rw [← hr]
      have hw2 : (spreadIter (jsOr ((lookupField fs "invoices").getD .vundefined)
            (.varr [])) >>= fun a1 =>
          spreadIter (jsOr ((lookupField fs "expenses").getD .vundefined)
            (.varr [])) >>= fun a2 =>
          spreadIter (jsOr ((lookupField fs "payments").getD .vundefined)
            (.varr [])) >>= fun a3 =>
          recordsWithoutDates (a1 ++ a2 ++ a3) >>= fun noDates =>
          suspiciousAmounts (a1 ++ a2 ++ a3) >>= fun sus =>
          pure ((if strictEqZero (optChainLength
              ((lookupField fs "invoices").getD .vundefined)) then
            ["No invoice data provided - cash flow projections may be inaccurate"]
            else []) ++
          (if strictEqZero (optChainLength
              ((lookupField fs "expenses").getD .vundefined)) then
            ["No expense data provided - cost analysis will be limited"]
            else []) ++
          (if noDates.length > 0 then
            [toString noDates.length ++
              " records missing dates - timeline analysis may be affected"]
            else []) ++
          (if sus.length > 0 then
            [toString sus.length ++ " records with unusual amounts detected"]
            else []))) = Except.ok w := hw
      rw [hinv] at hw2
      rcases bindEqOk.mp hw2 with ⟨a1, ha1, hw3⟩
      rcases bindEqOk.mp hw3 with ⟨a2, ha2, hw4⟩
      rcases bindEqOk.mp hw4 with ⟨a3, ha3, hw5⟩
      rcases bindEqOk.mp hw5 with ⟨nd, hnd, hw6⟩
      rcases bindEqOk.mp hw6 with ⟨sus, hsus, hw7⟩
      have hwval := Except.ok.inj hw7
      rw [← hwval]
      simp [strictEqZero, optChainLength, getField]
    · rw [if_neg he] at hok
      have hr : ValidationResult.mk false
          ((validateFinancialData (.vobj fs)).map formatValidationError) [] = r :=
        Except.ok.inj hok
      rw [← hr] at hval
      exact absurd hval (by simp)
  · intro d r hok hval
    unfold validateData at hok
    by_cases he : (validateFinancialData d).isEmpty
    · rw [if_pos he] at hok
      rcases bindEqOk.mp hok with ⟨w, hw, hp⟩
      have hr : ValidationResult.mk true [] w = r := Except.ok.inj hp
      rw [← hr] at hval
      exact absurd hval (by simp)
    · rw [if_neg he] at hok
      have hr : ValidationResult.mk false
          ((validateFinancialData d).map formatValidationError) [] = r :=
        Except.ok.inj hok
      rw [← hr]

/-- Witness for C9: a valid input with empty invoices and one clean
expense record gets the cash-flow warning while staying valid. -/
theorem c9_witness :
    "No invoice data provided - cash flow projections may be inaccurate" ∈
      (ValidationResult.mk true []
        ["No invoice data provided - cash flow projections may be inaccurate"]).warnings :=
  c9_warnings_soft.1
    [("invoices", .varr []),
     ("expenses", .varr [.vobj [("amount", .vnum 5), ("date", .vstr "2024-01-02")]])]
    (ValidationResult.mk true []
      ["No invoice data provided - cash flow projections may be inaccurate"])
    rfl rfl rfl

/-- Presence of a top-level key on a JS value. -/
def hasKey (v : JVal) (k : String) : Bool :=
  match v with
  | .vobj fs => (lookupField fs k).isSome
  | _ => false

/-- Claim C10 (confirmed): absence of the top-level `invoices` or
`expenses` key forces `isValid: false`; a structure with only those two
keys (plus an unknown extra key) and without `payments`, `balances` or
`metadata` is valid. -/
theorem c10_required_keys :
    (∀ (v : JVal) (r : ValidationResult), validateData v = .ok r →
      (hasKey v "invoices" = false ∨ hasKey v "expenses" = false) →
      r.isValid = false) ∧
    validateData (.vobj [("invoices", .varr []), ("expenses", .varr []),
      ("futureUse", .vnum 1)]) =
      .ok ⟨true, [],
        ["No invoice data provided - cash flow projections may be inaccurate",
         "No expense data provided - cost analysis will be limited"]⟩ := by
  constructor
  · have hmain : ∀ v : JVal,
        (hasKey v "invoices" = false ∨ hasKey v "expenses" = false) →
        (validateFinancialData v).isEmpty = false := by
      intro v hk
      cases v with
      | vobj fs =>
        unfold validateFinancialData requiredErrs
        rcases hk with h | h
        · have hnone : lookupField fs "invoices" = none := by
            have h2 : (lookupField fs "invoices").isSome = false := h
            exact Option.not_isSome_iff_eq_none.mp (by simp [h2])
          have hgo : getOwn fs "invoices" = none := by
            unfold getOwn
            rw [hnone]
          simp [List.filterMap_cons, hgo]
        · have hnone : lookupField fs "expenses" = none := by
            have h2 : (lookupField fs "expenses").isSome = false := h
            exact Option.not_isSome_iff_eq_none.mp (by simp [h2])
          have hgo : getOwn fs "expenses" = none := by
            unfold getOwn
            rw [hnone]
          cases hials : getOwn fs "invoices" with
          | none => simp [List.filterMap_cons, hgo, hials]
          | some x => simp [List.filterMap_cons, hgo, hials]
      | vnull => rfl
      | vundefined => rfl
      | vbool b => rfl
      | vnum q => rfl
      | vstr s => rfl
      | varr xs => rfl
    intro v r hok hk
    have he := hmain v hk
    unfold validateData at hok
    rw [if_neg (by simp [he])] at hok
    have hr : ValidationResult.mk false
        ((validateFinancialData v).map formatValidationError) [] = r :=
      Except.ok.inj hok
    rw [← hr]
  · rfl

/-- Witness for C10: an object lacking `invoices` validates to
`isValid: false`. -/
theorem c10_witness :
    validateData (.vobj [("expenses", .varr [])]) =
      .ok ⟨false,
        [⟨"#/required",
          "must have required property " ++ quoteCh ++ "invoices" ++ quoteCh,
          .vundefined, .vobj [("missingProperty", .vstr "invoices")]⟩], []⟩ ∧
    (ValidationResult.mk false
      [⟨"#/required",
        "must have required property " ++ quoteCh ++ "invoices" ++ quoteCh,
        .vundefined, .vobj [("missingProperty", .vstr "invoices")]⟩] []).isValid
      = false :=
  ⟨rfl, c10_required_keys.1 (.vobj [("expenses", .varr [])]) _ rfl (Or.inl rfl)⟩
